import Mathlib

/-!
Verification of the quantum-dance-recommender numeric pipeline.

This file gives a shallow embedding, in Lean 4, of the core numeric pipeline
of the recommender: motion-feature aggregation (video_processor.py), emotion
inference (emotion_analyzer.py), the deterministic recommendation engine
(classical_recommender.py) and the amplitude-based recommendation engine
(quantum_recommender.py), together with the configuration constants
(config.py).  Python float arithmetic is modelled with exact rationals
(every float is a rational; the spec tolerance of 1e-9 becomes exact
equality), complex state vectors with functions into the complex numbers,
and Python dictionaries over the fixed emotion and dance vocabularies with
total functions that are zero outside the vocabulary of the dictionary.
The square root taken by np.std is kept abstract as a function parameter
where its value is irrelevant, and is Real.sqrt where it matters.
-/

/-- Emotion vocabulary: the seven facial categories followed by the six
movement categories, in the order of Config.FACIAL_EMOTIONS and
Config.MOVEMENT_EMOTIONS. -/
inductive Emotion
  | happy | sad | angry | surprise | neutral | fear | disgust
  | energetic | calm | aggressive | graceful | playful | melancholic
deriving DecidableEq, Fintype

/-- Dance styles, in the order of Config.DANCE_STYLES. -/
inductive DanceStyle
  | ballet | hipHop | contemporary | jazz | salsa
  | breakdance | ballroom | tap | lyrical | freestyle
deriving DecidableEq, Fintype

/-- Config.FACIAL_EMOTIONS. -/
def facialEmotionsList : List Emotion :=
  [.happy, .sad, .angry, .surprise, .neutral, .fear, .disgust]

/-- Config.MOVEMENT_EMOTIONS. -/
def movementEmotionsList : List Emotion :=
  [.energetic, .calm, .aggressive, .graceful, .playful, .melancholic]

/-- The union of both vocabularies, facial first, as built by
Config.FACIAL_EMOTIONS + Config.MOVEMENT_EMOTIONS. -/
def allEmotionsList : List Emotion := facialEmotionsList ++ movementEmotionsList

/-- Config.DANCE_STYLES. -/
def danceStylesList : List DanceStyle :=
  [.ballet, .hipHop, .contemporary, .jazz, .salsa,
   .breakdance, .ballroom, .tap, .lyrical, .freestyle]

/-- Config.QUANTUM_DIMENSIONS. -/
def quantumDimensions : ℕ := 16

/-- Config.ENTANGLEMENT_STRENGTH. -/
def entanglementStrength : ℚ := 0.7

/-- Config.SUPERPOSITION_THRESHOLD. -/
def superpositionThreshold : ℚ := 0.1

/-- Config.TOP_K_RECOMMENDATIONS. -/
def topK : ℕ := 5

/-- Sum of a per-emotion value over the whole emotion vocabulary, as
sum(d.values()) for a dictionary d over the union vocabulary. -/
def sumOver (f : Emotion → ℚ) : ℚ := (allEmotionsList.map f).sum

/-! ## Motion feature extractor (video_processor.py) -/

/-- The aggregated motion statistics returned by
VideoProcessor._aggregate_features, over an abstract frame type. -/
structure AggregatedFeatures (Frame : Type) where
  avg_velocity : ℚ
  max_velocity : ℚ
  velocity_variance : ℚ
  avg_acceleration : ℚ
  acceleration_variance : ℚ
  pose_diversity : ℚ
  sample_frames : List Frame

/-- The per-call feature accumulator filled by the tracking loop of
VideoProcessor.extract_features: velocities, accelerations and motion
magnitudes collected from the sampled frame pairs, plus retained frames. -/
structure RawMotionFeatures (Frame : Type) where
  velocities : List ℚ
  accelerations : List ℚ
  motion_magnitudes : List ℚ
  frames : List Frame

/-- np.mean of a list. -/
def listMean (l : List ℚ) : ℚ := l.sum / (l.length : ℚ)

/-- np.max of a nonempty list (0 for the empty list, which the code never
evaluates). -/
def listMax : List ℚ → ℚ
  | [] => 0
  | x :: xs => xs.foldl max x

/-- np.var of a list: the population mean of the squared deviations. -/
def listVariance (l : List ℚ) : ℚ := listMean (l.map (fun x => (x - listMean l) ^ 2))

/-- VideoProcessor._aggregate_features.  The square root used by np.std for
pose diversity is passed in as sqrtApprox; every other statistic is exact
rational arithmetic.  After the statistics, avg and max velocity are divided
by max(avg_velocity, max_velocity, 1.0). -/
def aggregateFeatures {Frame : Type} (sqrtApprox : ℚ → ℚ)
    (raw : RawMotionFeatures Frame) : AggregatedFeatures Frame :=
  let avg_velocity := if raw.velocities.isEmpty then 0 else listMean raw.velocities
  let max_velocity := if raw.velocities.isEmpty then 0 else listMax raw.velocities
  let velocity_variance := if raw.velocities.isEmpty then 0 else listVariance raw.velocities
  let avg_acceleration := if raw.accelerations.isEmpty then 0 else listMean raw.accelerations
  let acceleration_variance :=
    if raw.accelerations.isEmpty then 0 else listVariance raw.accelerations
  let pose_diversity :=
    if raw.motion_magnitudes.isEmpty then 0
    else sqrtApprox (listVariance raw.motion_magnitudes)
  let max_val := max (max avg_velocity max_velocity) 1
  { avg_velocity := avg_velocity / max_val
    max_velocity := max_velocity / max_val
    velocity_variance := velocity_variance
    avg_acceleration := avg_acceleration
    acceleration_variance := acceleration_variance
    pose_diversity := pose_diversity
    sample_frames := raw.frames }

/-- VideoProcessor.extract_features.  A source is either unopenable (none),
in which case the ValueError described by the spec as VideoUnreadable is
raised before any aggregation, or it is openable and yields the raw motion
features collected by the tracking loop, which are then aggregated. -/
def extractFeatures {Frame : Type} (sqrtApprox : ℚ → ℚ)
    (source : Option (RawMotionFeatures Frame)) :
    Except String (AggregatedFeatures Frame) :=
  match source with
  | none => Except.error "Could not open video file"
  | some raw => Except.ok (aggregateFeatures sqrtApprox raw)

/-! ## Emotion inference engine (emotion_analyzer.py) -/

/-- The uniform distribution over the facial vocabulary, as
1.0/len(facial_emotions) per facial emotion (the dictionary comprehension
ranges over the facial vocabulary only). -/
def uniformFacial : Emotion → ℚ
  | .happy | .sad | .angry | .surprise | .neutral | .fear | .disgust =>
      1 / (facialEmotionsList.length : ℚ)
  | _ => 0

/-- The fixed distribution emitted when a face is detected. -/
def detectedFacial : Emotion → ℚ
  | .happy => 0.3
  | .neutral => 0.3
  | .surprise => 0.2
  | .sad => 0.1
  | .angry => 0.05
  | .fear => 0.03
  | .disgust => 0.02
  | _ => 0

/-- EmotionAnalyzer._analyze_facial_presence: uniform when there are no
sample frames, otherwise the fixed distribution when some frame contains a
face and the uniform distribution when none does.  Face detection itself is
an external capability passed in as faceInFrame. -/
def analyzeFacialPresence {Frame : Type} (frames : List Frame)
    (faceInFrame : Frame → Bool) : Emotion → ℚ :=
  if frames.isEmpty then uniformFacial
  else if frames.any faceInFrame then detectedFacial
  else uniformFacial

/-- The six raw movement scores of EmotionAnalyzer._analyze_movement_emotions,
before renormalization; zero outside the movement vocabulary. -/
def movementRaw {Frame : Type} (feat : AggregatedFeatures Frame) : Emotion → ℚ :=
  fun e => match e with
  | .energetic => min 1 ((feat.avg_velocity * 2 + feat.avg_acceleration) / 2)
  | .calm => max 0 (1 - (feat.avg_velocity + feat.velocity_variance) / 2)
  | .aggressive => min 1 ((feat.avg_acceleration * 2 + feat.velocity_variance) / 2)
  | .graceful =>
      if 0.3 < feat.avg_velocity ∧ feat.velocity_variance < 0.3 then 0.7 else 0.3
  | .playful => min 1 ((feat.pose_diversity * 3 + feat.avg_velocity) / 2)
  | .melancholic => max 0 (1 - (feat.avg_velocity + feat.pose_diversity) / 2)
  | _ => 0

/-- EmotionAnalyzer._analyze_movement_emotions: the raw movement scores,
renormalized to sum to 1 when their total is positive and left unchanged
otherwise. -/
def analyzeMovementEmotions {Frame : Type} (feat : AggregatedFeatures Frame) :
    Emotion → ℚ :=
  let total := (movementEmotionsList.map (movementRaw feat)).sum
  if 0 < total then fun e => movementRaw feat e / total else movementRaw feat

/-- EmotionAnalyzer._combine_emotions: 0.4 times the facial value plus 0.6
times the movement value over the union vocabulary, renormalized when the
total is positive. -/
def combineEmotions (facial movement : Emotion → ℚ) : Emotion → ℚ :=
  let combined : Emotion → ℚ := fun e => facial e * 0.4 + movement e * 0.6
  let total := sumOver combined
  if 0 < total then fun e => combined e / total else combined

/-- The three distributions returned by EmotionAnalyzer.analyze_emotions. -/
structure EmotionAnalysis where
  facial : Emotion → ℚ
  movement : Emotion → ℚ
  combined : Emotion → ℚ

/-- EmotionAnalyzer.analyze_emotions. -/
def analyzeEmotions {Frame : Type} (feat : AggregatedFeatures Frame)
    (faceInFrame : Frame → Bool) : EmotionAnalysis :=
  let facial := analyzeFacialPresence feat.sample_frames faceInFrame
  let movement := analyzeMovementEmotions feat
  { facial := facial, movement := movement, combined := combineEmotions facial movement }

/-! ## Deterministic recommendation engine (classical_recommender.py) -/

/-- ClassicalRecommender._build_emotion_dance_matrix: the static
emotion-to-dance affinity knowledge base; a missing pair is none. -/
def affinityTable : Emotion → DanceStyle → Option ℚ
  | .happy, .hipHop => some 0.8
  | .happy, .jazz => some 0.7
  | .happy, .salsa => some 0.9
  | .happy, .tap => some 0.6
  | .sad, .contemporary => some 0.9
  | .sad, .lyrical => some 0.8
  | .sad, .ballet => some 0.6
  | .angry, .breakdance => some 0.8
  | .angry, .hipHop => some 0.7
  | .angry, .freestyle => some 0.6
  | .energetic, .hipHop => some 0.9
  | .energetic, .breakdance => some 0.8
  | .energetic, .salsa => some 0.7
  | .energetic, .tap => some 0.6
  | .calm, .ballet => some 0.9
  | .calm, .contemporary => some 0.7
  | .calm, .lyrical => some 0.8
  | .graceful, .ballet => some 1
  | .graceful, .ballroom => some 0.8
  | .graceful, .contemporary => some 0.7
  | .playful, .jazz => some 0.8
  | .playful, .tap => some 0.7
  | .playful, .freestyle => some 0.6
  | .aggressive, .breakdance => some 0.9
  | .aggressive, .hipHop => some 0.7
  | .melancholic, .contemporary => some 0.9
  | .melancholic, .lyrical => some 0.8
  | .melancholic, .ballet => some 0.6
  | .surprise, .freestyle => some 0.7
  | .surprise, .jazz => some 0.6
  | .neutral, .freestyle => some 0.5
  | .neutral, .contemporary => some 0.5
  | .fear, .contemporary => some 0.6
  | .fear, .freestyle => some 0.5
  | .disgust, .freestyle => some 0.5
  | _, _ => none

/-- The accumulated score of one dance style in ClassicalRecommender.recommend:
the sum over the emotions of intensity times affinity, emotions without an
affinity entry contributing nothing. -/
def danceScore (emotions : Emotion → ℚ) (dance : DanceStyle) : ℚ :=
  (allEmotionsList.map (fun e =>
    match affinityTable e dance with
    | some affinity => emotions e * affinity
    | none => 0)).sum

/-- One recommendation entry.  The reasoning string of the code names the top
contributing emotion when one exists; the embedding keeps that emotion. -/
structure Recommendation where
  dance_style : DanceStyle
  score : ℚ
  confidence : ℚ
  reasoning : Option Emotion
deriving DecidableEq

/-- Descending order on scored dance styles, as used by
sorted(..., key=score, reverse=True); insertion sort realizes the same
stable descending order as the stable Python sort. -/
def scoreDescending (a b : DanceStyle × ℚ) : Prop := b.2 ≤ a.2

instance : DecidableRel scoreDescending := fun a b =>
  inferInstanceAs (Decidable (b.2 ≤ a.2))

instance : IsTotal (DanceStyle × ℚ) scoreDescending := ⟨fun a b => le_total b.2 a.2⟩

instance : IsTrans (DanceStyle × ℚ) scoreDescending :=
  ⟨fun _ _ _ h1 h2 => le_trans h2 h1⟩

/-- Descending order on per-emotion contributions, as used by
ClassicalRecommender._generate_reasoning. -/
def contribDescending (a b : Emotion × ℚ) : Prop := b.2 ≤ a.2

instance : DecidableRel contribDescending := fun a b =>
  inferInstanceAs (Decidable (b.2 ≤ a.2))

/-- ClassicalRecommender._generate_reasoning: the emotion with the largest
intensity-times-affinity contribution to the style, none when the style has
no affinity entry at all. -/
def classicalReasoning (dance : DanceStyle) (emotions : Emotion → ℚ) : Option Emotion :=
  ((List.insertionSort contribDescending
    (allEmotionsList.filterMap (fun e =>
      (affinityTable e dance).map (fun affinity => (e, emotions e * affinity))))).head?).map
    Prod.fst

/-- The result structure of ClassicalRecommender.recommend. -/
structure ClassicalResult where
  recommendations : List Recommendation
  method : String
  diversity_score : ℝ

/-- ClassicalRecommender._calculate_diversity: 0.0 below two recommendations,
otherwise np.std of the kept scores (the square root of the population
variance). -/
noncomputable def calculateDiversity (recs : List Recommendation) : ℝ :=
  if recs.length < 2 then 0
  else Real.sqrt ((listVariance (recs.map Recommendation.score) : ℚ) : ℝ)

/-- The recommendation list built by ClassicalRecommender.recommend: score
every style, sort descending with a stable sort, keep the positively scored
entries of the top K, and attach confidence min(1.0, score). -/
def classicalRecommendations (emotions : Emotion → ℚ) : List Recommendation :=
  let danceScores := danceStylesList.map (fun d => (d, danceScore emotions d))
  let sortedDances := List.insertionSort scoreDescending danceScores
  ((sortedDances.take topK).filter (fun x => decide (0 < x.2))).map
    (fun x => { dance_style := x.1, score := x.2, confidence := min 1 x.2,
                reasoning := classicalReasoning x.1 emotions : Recommendation })

/-- ClassicalRecommender.recommend: the recommendation list plus the method
tag and the diversity metric. -/
noncomputable def classicalRecommend (emotions : Emotion → ℚ) : ClassicalResult :=
  { recommendations := classicalRecommendations emotions
    method := "classical"
    diversity_score := calculateDiversity (classicalRecommendations emotions) }

/-! ## Amplitude-based recommendation engine (quantum_recommender.py) -/

/-- A state vector of the 16-dimensional complex space, indexed by
coordinate; every operation below reads only coordinates 0..15. -/
def QuantumState : Type := ℕ → ℂ

/-- The coordinate index list of the 16-dimensional space. -/
def coordList : List ℕ := List.range quantumDimensions

/-- The one-hot basis vector construction shared by _create_emotion_basis and
_create_dance_basis: a zero vector whose entry i is set to 1 when
i < QUANTUM_DIMENSIONS. -/
def basisVec (i : ℕ) : QuantumState :=
  fun j => if i < quantumDimensions ∧ j = i then 1 else 0

/-- The basis index of an emotion: its position in the concatenated
FACIAL_EMOTIONS + MOVEMENT_EMOTIONS list. -/
def emotionIdx : Emotion → ℕ
  | .happy => 0 | .sad => 1 | .angry => 2 | .surprise => 3 | .neutral => 4
  | .fear => 5 | .disgust => 6 | .energetic => 7 | .calm => 8 | .aggressive => 9
  | .graceful => 10 | .playful => 11 | .melancholic => 12

/-- QuantumRecommender._create_emotion_basis. -/
def emotionBasis (e : Emotion) : QuantumState := basisVec (emotionIdx e)

/-- The basis index of a dance style: its position in DANCE_STYLES. -/
def danceIdx : DanceStyle → ℕ
  | .ballet => 0 | .hipHop => 1 | .contemporary => 2 | .jazz => 3 | .salsa => 4
  | .breakdance => 5 | .ballroom => 6 | .tap => 7 | .lyrical => 8 | .freestyle => 9

/-- QuantumRecommender._create_dance_basis. -/
def danceBasis (d : DanceStyle) : QuantumState := basisVec (danceIdx d)

/-- QuantumRecommender._create_entanglement_matrix: the static emotion-dance
correlation knowledge base; a missing pair is none. -/
def correlationTable : Emotion → DanceStyle → Option ℚ
  | .happy, .hipHop => some 0.9
  | .happy, .jazz => some 0.8
  | .happy, .salsa => some 0.95
  | .happy, .tap => some 0.7
  | .sad, .contemporary => some 0.95
  | .sad, .lyrical => some 0.9
  | .sad, .ballet => some 0.7
  | .angry, .breakdance => some 0.9
  | .angry, .hipHop => some 0.8
  | .angry, .freestyle => some 0.7
  | .energetic, .hipHop => some 0.95
  | .energetic, .breakdance => some 0.9
  | .energetic, .salsa => some 0.85
  | .calm, .ballet => some 0.95
  | .calm, .contemporary => some 0.8
  | .calm, .lyrical => some 0.9
  | .graceful, .ballet => some 1
  | .graceful, .ballroom => some 0.9
  | .graceful, .contemporary => some 0.8
  | .playful, .jazz => some 0.9
  | .playful, .tap => some 0.85
  | .playful, .freestyle => some 0.7
  | .aggressive, .breakdance => some 0.95
  | .aggressive, .hipHop => some 0.8
  | .melancholic, .contemporary => some 0.95
  | .melancholic, .lyrical => some 0.9
  | .melancholic, .ballet => some 0.7
  | _, _ => none

/-- The complex amplitude contributed by one emotion in
_create_superposition_state: the Born amplitude sqrt(probability) times the
random phase factor exp(i * phase); the phase drawn per emotion per call is
the explicit argument phi. -/
noncomputable def superpositionAmplitude (p : Emotion → ℚ) (phi : Emotion → ℝ)
    (e : Emotion) : ℂ :=
  (Real.sqrt (p e) : ℂ) * Complex.exp ((phi e : ℂ) * Complex.I)

/-- The state accumulated by the loop of _create_superposition_state before
normalization: the sum over the emotions of amplitude times basis vector. -/
noncomputable def rawSuperposition (p : Emotion → ℚ) (phi : Emotion → ℝ) : QuantumState :=
  fun j => (allEmotionsList.map (fun e =>
    superpositionAmplitude p phi e * emotionBasis e j)).sum

/-- The squared Euclidean norm of a state, summed over the 16 coordinates. -/
noncomputable def stateNormSq (ψ : QuantumState) : ℝ :=
  (coordList.map (fun j => Complex.normSq (ψ j))).sum

/-- np.linalg.norm of a state. -/
noncomputable def stateNorm (ψ : QuantumState) : ℝ := Real.sqrt (stateNormSq ψ)

/-- QuantumRecommender._create_superposition_state: the accumulated state,
divided by its norm when the norm is positive and kept unchanged otherwise. -/
noncomputable def createSuperpositionState (p : Emotion → ℚ) (phi : Emotion → ℝ) :
    QuantumState :=
  let state := rawSuperposition p phi
  let n := stateNorm state
  if 0 < n then fun j => state j / (n : ℂ) else state

/-- The diagonal factor contributed by one emotion to the entanglement
operator entry of one dance: exp(i * correlation * ENTANGLEMENT_STRENGTH *
(pi/2) * intensity) when the correlation entry exists, and 1 (entry left
unchanged) otherwise. -/
noncomputable def entanglementFactor (p : Emotion → ℚ) (dance : DanceStyle)
    (e : Emotion) : ℂ :=
  match correlationTable e dance with
  | some correlation =>
      Complex.exp (Complex.ofReal
        (((correlation * entanglementStrength : ℚ) : ℝ) * (Real.pi / 2) * ((p e : ℚ) : ℝ))
          * Complex.I)
  | none => 1

/-- The diagonal of the entanglement operator built by _apply_entanglement:
the identity diagonal, with the entry of each dance index multiplied by the
factor of every emotion. -/
noncomputable def entanglementDiagonal (p : Emotion → ℚ) : ℕ → ℂ := fun j =>
  match danceStylesList[j]? with
  | some dance => (allEmotionsList.map (entanglementFactor p dance)).prod
  | none => 1

/-- QuantumRecommender._apply_entanglement: the diagonal operator applied to
the state. -/
noncomputable def applyEntanglement (ψ : QuantumState) (p : Emotion → ℚ) : QuantumState :=
  fun j => entanglementDiagonal p j * ψ j

/-- np.dot(np.conj(v), w) over the 16 coordinates. -/
noncomputable def innerProduct (v w : QuantumState) : ℂ :=
  (coordList.map (fun j => (starRingEnd ℂ) (v j) * w j)).sum

/-- The projection probability of one dance style in _quantum_measurement. -/
noncomputable def danceProjection (ψ : QuantumState) (dance : DanceStyle) : ℝ :=
  Complex.abs (innerProduct (danceBasis dance) ψ) ^ 2

/-- The boost term of one dance style in _quantum_measurement: the sum of
intensity times correlation over the emotions with a correlation entry. -/
def entanglementBoost (p : Emotion → ℚ) (dance : DanceStyle) : ℚ :=
  (allEmotionsList.map (fun e =>
    match correlationTable e dance with
    | some correlation => p e * correlation
    | none => 0)).sum

/-- The unnormalized dance weight of _quantum_measurement:
projection * (1 + boost). -/
noncomputable def danceWeight (ψ : QuantumState) (p : Emotion → ℚ)
    (dance : DanceStyle) : ℝ :=
  danceProjection ψ dance * (1 + (entanglementBoost p dance : ℝ))

/-- The normalization step of _quantum_measurement: weights divided by their
total when the total is positive, unchanged otherwise. -/
noncomputable def normalizedDanceWeight (ψ : QuantumState) (p : Emotion → ℚ) :
    DanceStyle → ℝ :=
  let total := (danceStylesList.map (danceWeight ψ p)).sum
  if 0 < total then fun d => danceWeight ψ p d / total else danceWeight ψ p

/-- Descending order on real-weighted dance styles, for the stable
descending sort of _quantum_measurement. -/
def weightDescending (a b : DanceStyle × ℝ) : Prop := b.2 ≤ a.2

noncomputable instance : DecidableRel weightDescending := fun a b =>
  inferInstanceAs (Decidable (b.2 ≤ a.2))

instance : IsTotal (DanceStyle × ℝ) weightDescending := ⟨fun a b => le_total b.2 a.2⟩

instance : IsTrans (DanceStyle × ℝ) weightDescending :=
  ⟨fun _ _ _ h1 h2 => le_trans h2 h1⟩

/-- One amplitude-engine recommendation entry; as in the deterministic
engine, the reasoning keeps the top entangled emotion when one exists. -/
structure QuantumRecommendation where
  dance_style : DanceStyle
  score : ℝ
  confidence : ℝ
  reasoning : Option Emotion
  quantum_amplitude : ℝ

/-- QuantumRecommender._generate_quantum_reasoning: the emotion with the
largest intensity-times-correlation product for the style, none when the
style has no correlation entry. -/
def quantumReasoning (dance : DanceStyle) (p : Emotion → ℚ) : Option Emotion :=
  ((List.insertionSort contribDescending
    (allEmotionsList.filterMap (fun e =>
      (correlationTable e dance).map (fun c => (e, p e * c))))).head?).map Prod.fst

/-- QuantumRecommender._quantum_measurement: normalize the dance weights,
sort descending with a stable sort, and keep the entries of the top K whose
weight exceeds SUPERPOSITION_THRESHOLD. -/
noncomputable def quantumMeasurement (ψ : QuantumState) (p : Emotion → ℚ) :
    List QuantumRecommendation :=
  let probs := normalizedDanceWeight ψ p
  let sortedDances := List.insertionSort weightDescending
    (danceStylesList.map (fun d => (d, probs d)))
  ((sortedDances.take topK).filter
      (fun x => decide ((superpositionThreshold : ℝ) < x.2))).map
    (fun x => { dance_style := x.1, score := x.2, confidence := x.2,
                reasoning := quantumReasoning x.1 p,
                quantum_amplitude := x.2 : QuantumRecommendation })

/-- calculate_entropy of utils.py: the Shannon entropy in bits over the
positive entries. -/
noncomputable def calculateEntropy (probabilities : List ℝ) : ℝ :=
  -(((probabilities.filter (fun x => decide (0 < x))).map
      (fun x => x * Real.logb 2 x)).sum)

/-- The summary metrics of QuantumRecommender.recommend. -/
structure QuantumProperties where
  superposition_entropy : ℝ
  entanglement_strength : ℚ
  coherence : ℝ

/-- The result structure of QuantumRecommender.recommend. -/
structure QuantumResult where
  recommendations : List QuantumRecommendation
  method : String
  quantum_properties : QuantumProperties

/-- QuantumRecommender.recommend: superposition, entanglement, measurement,
plus the entropy and coherence metrics of the pre-entanglement state. -/
noncomputable def quantumRecommend (p : Emotion → ℚ) (phi : Emotion → ℝ) : QuantumResult :=
  let quantum_state := createSuperpositionState p phi
  let entangled_state := applyEntanglement quantum_state p
  { recommendations := quantumMeasurement entangled_state p
    method := "quantum"
    quantum_properties :=
      { superposition_entropy :=
          calculateEntropy (coordList.map (fun j => Complex.abs (quantum_state j) ^ 2))
        entanglement_strength := entanglementStrength
        coherence := Complex.abs ((coordList.map quantum_state).sum) } }

/-! ## Concrete inputs used by the scenario theorems and witnesses -/

/-- Concrete input: the all-zero aggregated features with no sample frames. -/
def zeroFeatures : AggregatedFeatures Unit :=
  { avg_velocity := 0, max_velocity := 0, velocity_variance := 0,
    avg_acceleration := 0, acceleration_variance := 0, pose_diversity := 0,
    sample_frames := [] }

/-- Concrete input: probability 1 on happy and 0 elsewhere. -/
def happyOnly : Emotion → ℚ := fun e => match e with
  | .happy => 1
  | _ => 0

/-- Concrete input: every drawn phase is 0. -/
def zeroPhase : Emotion → ℝ := fun _ => 0

/-- Concrete input: intensity 1 on energetic and 0 elsewhere. -/
def energeticOnly : Emotion → ℚ := fun e => match e with
  | .energetic => 1
  | _ => 0

/-- A face detector that never reports a face, for frame-free scenarios. -/
def noFaceDetector : Unit → Bool := fun _ => false

/-! ## Shared lemmas about the emotion distributions -/

theorem mem_allEmotionsList (e : Emotion) : e ∈ allEmotionsList := by
  cases e <;> decide

theorem mem_danceStylesList (d : DanceStyle) : d ∈ danceStylesList := by
  cases d <;> decide

/-- Helper: a mapped sum of pointwise divisions is the division of the sum. -/
theorem list_sum_map_div {α : Type} {K : Type} [DivisionRing K]
    (l : List α) (f : α → K) (c : K) :
    (l.map (fun x => f x / c)).sum = (l.map f).sum / c := by
  induction l with
  | nil => simp
  | cons x xs ih => simp [ih, add_div]

/-- Helper: a mapped sum of pointwise nonnegative values is nonnegative. -/
theorem list_sum_map_nonneg {α : Type} (l : List α) (f : α → ℚ)
    (h : ∀ x ∈ l, 0 ≤ f x) : 0 ≤ (l.map f).sum :=
  List.sum_nonneg (fun x hx => by
    obtain ⟨a, ha, rfl⟩ := List.mem_map.mp hx
    exact h a ha)

/-- Helper: if pointwise nonnegative values sum to zero over a list, each is zero. -/
theorem list_sum_map_eq_zero {α : Type} (l : List α) (f : α → ℚ)
    (h : ∀ x ∈ l, 0 ≤ f x) (hs : (l.map f).sum = 0) : ∀ x ∈ l, f x = 0 := by
  induction l with
  | nil => intro x hx; cases hx
  | cons a as ih =>
    simp only [List.map_cons, List.sum_cons] at hs
    have ha : 0 ≤ f a := h a (List.mem_cons_self a as)
    have has : 0 ≤ (as.map f).sum :=
      list_sum_map_nonneg as f (fun x hx => h x (List.mem_cons_of_mem a hx))
    have hfa : f a = 0 := by linarith
    intro x hx
    rcases List.mem_cons.mp hx with rfl | hx
    · exact hfa
    · exact ih (fun y hy => h y (List.mem_cons_of_mem a hy)) (by linarith) x hx

/-- sumOver of a nonnegative distribution is nonnegative. -/
theorem sumOver_nonneg (f : Emotion → ℚ) (h : ∀ e, 0 ≤ f e) : 0 ≤ sumOver f :=
  list_sum_map_nonneg _ _ (fun e _ => h e)

/-- sumOver of a pointwise division is the division of sumOver. -/
theorem sumOver_div (f : Emotion → ℚ) (c : ℚ) :
    sumOver (fun e => f e / c) = sumOver f / c :=
  list_sum_map_div _ _ _

/-- If a nonnegative distribution has sumOver zero, it is pointwise zero. -/
theorem sumOver_eq_zero (f : Emotion → ℚ) (h : ∀ e, 0 ≤ f e)
    (hs : sumOver f = 0) (e : Emotion) : f e = 0 :=
  list_sum_map_eq_zero _ _ (fun x _ => h x) hs e (mem_allEmotionsList e)


/-- sumOver splits into the facial and the movement part of the vocabulary. -/
theorem sumOver_split (f : Emotion → ℚ) :
    sumOver f = (facialEmotionsList.map f).sum + (movementEmotionsList.map f).sum := by
  simp [sumOver, allEmotionsList]

/-- The weighted combination sums to the weighted sums. -/
theorem sumOver_combined (f m : Emotion → ℚ) :
    sumOver (fun e => f e * 0.4 + m e * 0.6) = sumOver f * 0.4 + sumOver m * 0.6 := by
  simp only [sumOver, allEmotionsList, facialEmotionsList, movementEmotionsList,
    List.cons_append, List.nil_append, List.map_cons, List.map_nil,
    List.sum_cons, List.sum_nil]
  ring

/-- The unfolded shape of combineEmotions. -/
theorem combineEmotions_eq (f m : Emotion → ℚ) :
    combineEmotions f m =
      if 0 < sumOver (fun e => f e * 0.4 + m e * 0.6)
      then (fun e => (f e * 0.4 + m e * 0.6) / sumOver (fun e => f e * 0.4 + m e * 0.6))
      else (fun e => f e * 0.4 + m e * 0.6) := rfl

/-- When the weighted total is positive, the combined distribution sums to 1. -/
theorem combine_sum_one (f m : Emotion → ℚ)
    (hpos : 0 < sumOver f * 0.4 + sumOver m * 0.6) :
    sumOver (combineEmotions f m) = 1 := by
  have htot : 0 < sumOver (fun e => f e * 0.4 + m e * 0.6) := by
    rw [sumOver_combined]; exact hpos
  rw [combineEmotions_eq, if_pos htot, sumOver_div, div_self (ne_of_gt htot)]

/-- Claim C1: for nonnegative facial and movement distributions, the combined
distribution of the emotion inference engine is pointwise nonnegative; it
sums to 0 when both inputs sum to 0 and sums to exactly 1 otherwise (the
float tolerance of 1e-9 in the spec is exact equality in the rational
model). -/
theorem claim_c1 (facial movement : Emotion → ℚ)
    (hf : ∀ e, 0 ≤ facial e) (hm : ∀ e, 0 ≤ movement e) :
    (∀ e, 0 ≤ combineEmotions facial movement e) ∧
    (sumOver facial = 0 ∧ sumOver movement = 0 →
      sumOver (combineEmotions facial movement) = 0) ∧
    (¬(sumOver facial = 0 ∧ sumOver movement = 0) →
      sumOver (combineEmotions facial movement) = 1) := by
  have hpre : ∀ e, 0 ≤ facial e * 0.4 + movement e * 0.6 := fun e =>
    add_nonneg (mul_nonneg (hf e) (by norm_num)) (mul_nonneg (hm e) (by norm_num))
  have hsf : 0 ≤ sumOver facial := sumOver_nonneg _ hf
  have hsm : 0 ≤ sumOver movement := sumOver_nonneg _ hm
  refine ⟨?_, ?_, ?_⟩
  · intro e
    rw [combineEmotions_eq]
    by_cases h : 0 < sumOver (fun e => facial e * 0.4 + movement e * 0.6)
    · rw [if_pos h]
      exact div_nonneg (hpre e) (le_of_lt h)
    · rw [if_neg h]
      exact hpre e
  · rintro ⟨hzf, hzm⟩
    have htot : sumOver (fun e => facial e * 0.4 + movement e * 0.6) = 0 := by
      rw [sumOver_combined, hzf, hzm]; ring
    rw [combineEmotions_eq, if_neg (by rw [htot]; exact lt_irrefl 0)]
    rw [htot]
  · intro h
    apply combine_sum_one
    rcases Classical.em (sumOver facial = 0) with hzf | hzf
    · have hzm : sumOver movement ≠ 0 := fun hc => h ⟨hzf, hc⟩
      have : 0 < sumOver movement := lt_of_le_of_ne hsm (Ne.symm hzm)
      nlinarith
    · have : 0 < sumOver facial := lt_of_le_of_ne hsf (Ne.symm hzf)
      nlinarith

/-- Witness for claim C1 at the all-zero facial and movement pair. -/
theorem claim_c1_witness :
    0 ≤ combineEmotions (fun _ => 0) (fun _ => 0) Emotion.happy :=
  (claim_c1 (fun _ => 0) (fun _ => 0) (fun _ => le_refl 0) (fun _ => le_refl 0)).1
    Emotion.happy

/-- The unfolded shape of analyzeMovementEmotions. -/
theorem analyzeMovementEmotions_eq {Frame : Type} (feat : AggregatedFeatures Frame) :
    analyzeMovementEmotions feat =
      if 0 < (movementEmotionsList.map (movementRaw feat)).sum
      then (fun e => movementRaw feat e / (movementEmotionsList.map (movementRaw feat)).sum)
      else movementRaw feat := rfl

/-- Claim C10: for aggregated features with nonnegative numeric fields the
graceful raw movement score is 0.7 or 0.3, the raw movement total is
strictly positive, the renormalized movement distribution sums to exactly 1,
and for every nonnegative facial distribution the combined distribution also
sums to exactly 1; the all-zero fallback branches of the movement and the
combined normalization are therefore never taken on such inputs. -/
theorem claim_c10 {Frame : Type} (feat : AggregatedFeatures Frame)
    (hv : 0 ≤ feat.avg_velocity) (hvar : 0 ≤ feat.velocity_variance)
    (ha : 0 ≤ feat.avg_acceleration) (hpd : 0 ≤ feat.pose_diversity) :
    (movementRaw feat .graceful = 0.7 ∨ movementRaw feat .graceful = 0.3) ∧
    0 < (movementEmotionsList.map (movementRaw feat)).sum ∧
    sumOver (analyzeMovementEmotions feat) = 1 ∧
    (∀ facial : Emotion → ℚ, (∀ e, 0 ≤ facial e) →
      sumOver (combineEmotions facial (analyzeMovementEmotions feat)) = 1) := by
  have hgraceful : movementRaw feat .graceful = 0.7 ∨ movementRaw feat .graceful = 0.3 := by
    simp only [movementRaw]
    by_cases h : 0.3 < feat.avg_velocity ∧ feat.velocity_variance < 0.3
    · left; rw [if_pos h]
    · right; rw [if_neg h]
  have hge : (0.3 : ℚ) ≤ movementRaw feat .graceful := by
    rcases hgraceful with h | h <;> rw [h] <;> norm_num
  have hen : 0 ≤ movementRaw feat .energetic := by
    simp only [movementRaw]
    exact le_min (by norm_num) (by positivity)
  have hca : 0 ≤ movementRaw feat .calm := by
    simp only [movementRaw]; exact le_max_left 0 _
  have hagg : 0 ≤ movementRaw feat .aggressive := by
    simp only [movementRaw]
    exact le_min (by norm_num) (by positivity)
  have hpl : 0 ≤ movementRaw feat .playful := by
    simp only [movementRaw]
    exact le_min (by norm_num) (by positivity)
  have hme : 0 ≤ movementRaw feat .melancholic := by
    simp only [movementRaw]; exact le_max_left 0 _
  have htotpos : 0 < (movementEmotionsList.map (movementRaw feat)).sum := by
    simp only [movementEmotionsList, List.map_cons, List.map_nil, List.sum_cons,
      List.sum_nil]
    linarith
  have hfacial0 : ∀ e ∈ facialEmotionsList, movementRaw feat e = 0 := by
    intro e he
    fin_cases he <;> rfl
  have hsum_all : sumOver (movementRaw feat) =
      (movementEmotionsList.map (movementRaw feat)).sum := by
    rw [sumOver_split]
    have : (facialEmotionsList.map (movementRaw feat)).sum = 0 :=
      List.sum_eq_zero (fun x hx => by
        obtain ⟨e, he, rfl⟩ := List.mem_map.mp hx
        exact hfacial0 e he)
    rw [this, zero_add]
  have hmov1 : sumOver (analyzeMovementEmotions feat) = 1 := by
    rw [analyzeMovementEmotions_eq, if_pos htotpos, sumOver_div, hsum_all,
      div_self (ne_of_gt htotpos)]
  refine ⟨hgraceful, htotpos, hmov1, ?_⟩
  intro facial hfnn
  apply combine_sum_one
  have hsf : 0 ≤ sumOver facial := sumOver_nonneg _ hfnn
  rw [hmov1]
  nlinarith

theorem claim_c10_witness :
    sumOver (analyzeMovementEmotions zeroFeatures) = 1 :=
  (claim_c10 zeroFeatures (le_refl 0) (le_refl 0) (le_refl 0) (le_refl 0)).2.2.1

/-- Claim C8: the feature extractor fails with the unreadable-video error
exactly when the source cannot be opened, and the error is produced before
any aggregation (the openable case is the only one that aggregates); for an
openable source from which zero motion samples were collected, no error is
raised and every numeric field of the aggregated features is 0. -/
theorem claim_c8 {Frame : Type} (sqrtApprox : ℚ → ℚ) (raw : RawMotionFeatures Frame)
    (hv : raw.velocities = []) (hacc : raw.accelerations = [])
    (hmag : raw.motion_magnitudes = []) :
    (∀ source : Option (RawMotionFeatures Frame),
      (∃ msg, extractFeatures sqrtApprox source = Except.error msg) ↔ source = none) ∧
    extractFeatures sqrtApprox (none : Option (RawMotionFeatures Frame)) =
      Except.error "Could not open video file" ∧
    extractFeatures sqrtApprox (some raw) = Except.ok (aggregateFeatures sqrtApprox raw) ∧
    (aggregateFeatures sqrtApprox raw).avg_velocity = 0 ∧
    (aggregateFeatures sqrtApprox raw).max_velocity = 0 ∧
    (aggregateFeatures sqrtApprox raw).velocity_variance = 0 ∧
    (aggregateFeatures sqrtApprox raw).avg_acceleration = 0 ∧
    (aggregateFeatures sqrtApprox raw).acceleration_variance = 0 ∧
    (aggregateFeatures sqrtApprox raw).pose_diversity = 0 := by
  refine ⟨?_, rfl, rfl, ?_, ?_, ?_, ?_, ?_, ?_⟩
  · intro source
    cases source with
    | none => simp [extractFeatures]
    | some r => simp [extractFeatures]
  all_goals simp [aggregateFeatures, hv, hacc, hmag]

/-- Witness for claim C8 at the empty raw feature record. -/
theorem claim_c8_witness :
    (aggregateFeatures (fun q => q) (⟨[], [], [], []⟩ : RawMotionFeatures Unit)).avg_velocity
      = 0 :=
  (claim_c8 (fun q => q) ⟨[], [], [], []⟩ rfl rfl rfl).2.2.2.1

/-- Claim C9: both recommendation engines are deterministic functions of
their inputs; two calls with the same emotion distribution (and, for the
amplitude engine, the same drawn phases) return identical results, summary
metrics included.  The per-emotion random phases are the only
nondeterminism of the code and appear as the explicit phase argument. -/
theorem claim_c9 (p1 p2 : Emotion → ℚ) (phi1 phi2 : Emotion → ℝ)
    (hp : p1 = p2) (hphi : phi1 = phi2) :
    classicalRecommend p1 = classicalRecommend p2 ∧
    quantumRecommend p1 phi1 = quantumRecommend p2 phi2 := by
  subst hp
  subst hphi
  exact ⟨rfl, rfl⟩

/-- Witness for claim C9 at the zero distribution and zero phases. -/
theorem claim_c9_witness :
    classicalRecommend (fun _ => 0) = classicalRecommend (fun _ => 0) ∧
    quantumRecommend (fun _ => 0) (fun _ => 0) =
      quantumRecommend (fun _ => 0) (fun _ => 0) :=
  claim_c9 (fun _ => 0) (fun _ => 0) (fun _ => 0) (fun _ => 0) rfl rfl

/-- The unfolded shape of the recommendation list of classicalRecommend. -/
theorem classicalRecommend_recs (emotions : Emotion → ℚ) :
    (classicalRecommend emotions).recommendations =
      (((List.insertionSort scoreDescending
          (danceStylesList.map (fun d => (d, danceScore emotions d)))).take topK).filter
        (fun x => decide (0 < x.2))).map
        (fun x => { dance_style := x.1, score := x.2, confidence := min 1 x.2,
                    reasoning := classicalReasoning x.1 emotions : Recommendation }) := rfl

/-- The diversity metric of classicalRecommend is calculateDiversity of its
recommendation list. -/
theorem classicalRecommend_div (emotions : Emotion → ℚ) :
    (classicalRecommend emotions).diversity_score =
      calculateDiversity (classicalRecommendations emotions) := by
  simp only [classicalRecommend]

/-- The recommendation list of classicalRecommend is classicalRecommendations. -/
theorem classicalRecommend_recs_name (emotions : Emotion → ℚ) :
    (classicalRecommend emotions).recommendations = classicalRecommendations emotions := rfl

/-- Claim C4: for every input distribution, the deterministic engine keeps at
most K = 5 recommendations, their scores are sorted non-increasing, every
kept entry has positive score and confidence min(1, score), and the
diversity metric is 0 when fewer than 2 recommendations are kept. -/
theorem claim_c4 (emotions : Emotion → ℚ) :
    (classicalRecommend emotions).recommendations.length ≤ topK ∧
    List.Sorted (fun a b : ℚ => b ≤ a)
      ((classicalRecommend emotions).recommendations.map Recommendation.score) ∧
    (∀ r ∈ (classicalRecommend emotions).recommendations,
      0 < r.score ∧ r.confidence = min 1 r.score) ∧
    ((classicalRecommend emotions).recommendations.length < 2 →
      (classicalRecommend emotions).diversity_score = 0) := by
  have hsorted : List.Sorted scoreDescending
      (List.insertionSort scoreDescending
        (danceStylesList.map (fun d => (d, danceScore emotions d)))) :=
    List.sorted_insertionSort scoreDescending _
  have hsub : (((List.insertionSort scoreDescending
      (danceStylesList.map (fun d => (d, danceScore emotions d)))).take topK).filter
        (fun x => decide (0 < x.2))).Sublist
      (List.insertionSort scoreDescending
        (danceStylesList.map (fun d => (d, danceScore emotions d)))) :=
    (List.filter_sublist _).trans (List.take_sublist _ _)
  have hpair : List.Pairwise scoreDescending
      (((List.insertionSort scoreDescending
        (danceStylesList.map (fun d => (d, danceScore emotions d)))).take topK).filter
          (fun x => decide (0 < x.2))) :=
    List.Pairwise.sublist hsub hsorted
  refine ⟨?_, ?_, ?_, ?_⟩
  · rw [classicalRecommend_recs, List.length_map]
    calc (((List.insertionSort scoreDescending
          (danceStylesList.map (fun d => (d, danceScore emotions d)))).take topK).filter
            (fun x => decide (0 < x.2))).length
        ≤ ((List.insertionSort scoreDescending
            (danceStylesList.map (fun d => (d, danceScore emotions d)))).take topK).length :=
          List.length_filter_le _ _
      _ ≤ topK := by rw [List.length_take]; exact min_le_left _ _
  · rw [classicalRecommend_recs, List.map_map]
    exact List.Pairwise.map _ (fun a b h => h) hpair
  · intro r hr
    rw [classicalRecommend_recs] at hr
    obtain ⟨x, hx, rfl⟩ := List.mem_map.mp hr
    have hpos : (0 : ℚ) < x.2 := of_decide_eq_true (List.mem_filter.mp hx).2
    exact ⟨hpos, rfl⟩
  · intro hlen
    rw [classicalRecommend_recs_name] at hlen
    rw [classicalRecommend_div]
    unfold calculateDiversity
    rw [if_pos hlen]

/-! ## Lemmas about the amplitude engine -/

/-- The coordinate index list, written out. -/
theorem coordList_eq :
    coordList = [0, 1, 2, 3, 4, 5, 6, 7, 8, 9, 10, 11, 12, 13, 14, 15] := rfl

/-- The squared modulus of one superposition amplitude is the probability. -/
theorem normSq_superpositionAmplitude (p : Emotion → ℚ) (phi : Emotion → ℝ) (e : Emotion)
    (h : 0 ≤ p e) :
    Complex.normSq (superpositionAmplitude p phi e) = ((p e : ℚ) : ℝ) := by
  unfold superpositionAmplitude
  rw [Complex.normSq_mul, Complex.normSq_ofReal, Complex.normSq_eq_abs,
    Complex.abs_exp_ofReal_mul_I]
  rw [Real.mul_self_sqrt (by exact_mod_cast h)]
  norm_num

/-- The squared norm of the accumulated superposition is the total input
probability: the basis vectors of distinct emotions have disjoint support. -/
theorem stateNormSq_rawSuperposition (p : Emotion → ℚ) (phi : Emotion → ℝ)
    (hp : ∀ e, 0 ≤ p e) :
    stateNormSq (rawSuperposition p phi) = ((sumOver p : ℚ) : ℝ) := by
  have h0 : rawSuperposition p phi 0 = superpositionAmplitude p phi .happy := by
    simp [rawSuperposition, allEmotionsList, facialEmotionsList, movementEmotionsList,
      emotionBasis, basisVec, emotionIdx, quantumDimensions]
  have h1 : rawSuperposition p phi 1 = superpositionAmplitude p phi .sad := by
    simp [rawSuperposition, allEmotionsList, facialEmotionsList, movementEmotionsList,
      emotionBasis, basisVec, emotionIdx, quantumDimensions]
  have h2 : rawSuperposition p phi 2 = superpositionAmplitude p phi .angry := by
    simp [rawSuperposition, allEmotionsList, facialEmotionsList, movementEmotionsList,
      emotionBasis, basisVec, emotionIdx, quantumDimensions]
  have h3 : rawSuperposition p phi 3 = superpositionAmplitude p phi .surprise := by
    simp [rawSuperposition, allEmotionsList, facialEmotionsList, movementEmotionsList,
      emotionBasis, basisVec, emotionIdx, quantumDimensions]
  have h4 : rawSuperposition p phi 4 = superpositionAmplitude p phi .neutral := by
    simp [rawSuperposition, allEmotionsList, facialEmotionsList, movementEmotionsList,
      emotionBasis, basisVec, emotionIdx, quantumDimensions]
  have h5 : rawSuperposition p phi 5 = superpositionAmplitude p phi .fear := by
    simp [rawSuperposition, allEmotionsList, facialEmotionsList, movementEmotionsList,
      emotionBasis, basisVec, emotionIdx, quantumDimensions]
  have h6 : rawSuperposition p phi 6 = superpositionAmplitude p phi .disgust := by
    simp [rawSuperposition, allEmotionsList, facialEmotionsList, movementEmotionsList,
      emotionBasis, basisVec, emotionIdx, quantumDimensions]
  have h7 : rawSuperposition p phi 7 = superpositionAmplitude p phi .energetic := by
    simp [rawSuperposition, allEmotionsList, facialEmotionsList, movementEmotionsList,
      emotionBasis, basisVec, emotionIdx, quantumDimensions]
  have h8 : rawSuperposition p phi 8 = superpositionAmplitude p phi .calm := by
    simp [rawSuperposition, allEmotionsList, facialEmotionsList, movementEmotionsList,
      emotionBasis, basisVec, emotionIdx, quantumDimensions]
  have h9 : rawSuperposition p phi 9 = superpositionAmplitude p phi .aggressive := by
    simp [rawSuperposition, allEmotionsList, facialEmotionsList, movementEmotionsList,
      emotionBasis, basisVec, emotionIdx, quantumDimensions]
  have h10 : rawSuperposition p phi 10 = superpositionAmplitude p phi .graceful := by
    simp [rawSuperposition, allEmotionsList, facialEmotionsList, movementEmotionsList,
      emotionBasis, basisVec, emotionIdx, quantumDimensions]
  have h11 : rawSuperposition p phi 11 = superpositionAmplitude p phi .playful := by
    simp [rawSuperposition, allEmotionsList, facialEmotionsList, movementEmotionsList,
      emotionBasis, basisVec, emotionIdx, quantumDimensions]
  have h12 : rawSuperposition p phi 12 = superpositionAmplitude p phi .melancholic := by
    simp [rawSuperposition, allEmotionsList, facialEmotionsList, movementEmotionsList,
      emotionBasis, basisVec, emotionIdx, quantumDimensions]
  have h13 : rawSuperposition p phi 13 = 0 := by
    simp [rawSuperposition, allEmotionsList, facialEmotionsList, movementEmotionsList,
      emotionBasis, basisVec, emotionIdx, quantumDimensions]
  have h14 : rawSuperposition p phi 14 = 0 := by
    simp [rawSuperposition, allEmotionsList, facialEmotionsList, movementEmotionsList,
      emotionBasis, basisVec, emotionIdx, quantumDimensions]
  have h15 : rawSuperposition p phi 15 = 0 := by
    simp [rawSuperposition, allEmotionsList, facialEmotionsList, movementEmotionsList,
      emotionBasis, basisVec, emotionIdx, quantumDimensions]
  have key : ∀ e, Complex.normSq (superpositionAmplitude p phi e) = ((p e : ℚ) : ℝ) :=
    fun e => normSq_superpositionAmplitude p phi e (hp e)
  unfold stateNormSq
  rw [coordList_eq]
  simp only [List.map_cons, List.map_nil, List.sum_cons, List.sum_nil,
    h0, h1, h2, h3, h4, h5, h6, h7, h8, h9, h10, h11, h12, h13, h14, h15,
    key, Complex.normSq_zero, add_zero]
  unfold sumOver
  simp only [allEmotionsList, facialEmotionsList, movementEmotionsList,
    List.cons_append, List.nil_append, List.map_cons, List.map_nil,
    List.sum_cons, List.sum_nil]
  push_cast
  ring

/-- The unfolded shape of createSuperpositionState. -/
theorem createSuperpositionState_eq (p : Emotion → ℚ) (phi : Emotion → ℝ) :
    createSuperpositionState p phi =
      if 0 < stateNorm (rawSuperposition p phi)
      then (fun j => rawSuperposition p phi j / (stateNorm (rawSuperposition p phi) : ℂ))
      else rawSuperposition p phi := rfl

/-- Claim C2: for every nonnegative input distribution and every choice of
phases, the superposition state has Euclidean norm exactly 1 when the total
probability is positive, and it is the zero vector (normalization skipped)
when the total probability is 0. -/
theorem claim_c2 (p : Emotion → ℚ) (phi : Emotion → ℝ) (hp : ∀ e, 0 ≤ p e) :
    (0 < sumOver p → stateNorm (createSuperpositionState p phi) = 1) ∧
    (sumOver p = 0 → createSuperpositionState p phi = fun _ => 0) := by
  have hnsq : stateNormSq (rawSuperposition p phi) = ((sumOver p : ℚ) : ℝ) :=
    stateNormSq_rawSuperposition p phi hp
  constructor
  · intro hpos
    have hT : (0 : ℝ) < stateNormSq (rawSuperposition p phi) := by
      rw [hnsq]; exact_mod_cast hpos
    have hn : 0 < stateNorm (rawSuperposition p phi) := by
      unfold stateNorm; exact Real.sqrt_pos.mpr hT
    rw [createSuperpositionState_eq, if_pos hn]
    have hdivsq : stateNormSq
        (fun j => rawSuperposition p phi j / (stateNorm (rawSuperposition p phi) : ℂ)) =
        stateNormSq (rawSuperposition p phi) /
          (stateNorm (rawSuperposition p phi) * stateNorm (rawSuperposition p phi)) := by
      unfold stateNormSq
      simp only [Complex.normSq_div, Complex.normSq_ofReal]
      exact list_sum_map_div _ _ _
    have hself : stateNorm (rawSuperposition p phi) * stateNorm (rawSuperposition p phi) =
        stateNormSq (rawSuperposition p phi) := by
      unfold stateNorm; exact Real.mul_self_sqrt (le_of_lt hT)
    show Real.sqrt (stateNormSq
      (fun j => rawSuperposition p phi j / (stateNorm (rawSuperposition p phi) : ℂ))) = 1
    rw [hdivsq, hself, div_self (ne_of_gt hT), Real.sqrt_one]
  · intro hzero
    have hpe : ∀ e, p e = 0 := fun e => sumOver_eq_zero p hp hzero e
    have hraw : rawSuperposition p phi = fun _ => 0 := by
      funext j
      unfold rawSuperposition
      refine List.sum_eq_zero ?_
      intro x hx
      obtain ⟨e, he, rfl⟩ := List.mem_map.mp hx
      unfold superpositionAmplitude
      rw [hpe e]
      simp
    have hn0 : stateNorm (rawSuperposition p phi) = 0 := by
      unfold stateNorm
      rw [hnsq, hzero]
      simp
    rw [createSuperpositionState_eq,
      if_neg (show ¬0 < stateNorm (rawSuperposition p phi) by rw [hn0]; exact lt_irrefl 0)]
    exact hraw

/-- Witness for claim C2 at the zero distribution and zero phases. -/
theorem claim_c2_witness :
    createSuperpositionState (fun _ => 0) zeroPhase = fun _ => 0 :=
  (claim_c2 (fun _ => 0) zeroPhase (fun _ => le_refl 0)).2
    (by simp [sumOver, allEmotionsList, facialEmotionsList, movementEmotionsList])

/-- A product of unit-modulus complex numbers has unit squared modulus. -/
theorem normSq_list_prod_one (l : List ℂ) (h : ∀ z ∈ l, Complex.normSq z = 1) :
    Complex.normSq l.prod = 1 := by
  induction l with
  | nil => simp
  | cons x xs ih =>
    rw [List.prod_cons, Complex.normSq_mul, h x (List.mem_cons_self x xs),
      ih (fun z hz => h z (List.mem_cons_of_mem x hz)), one_mul]

/-- Every entanglement factor is a pure phase of unit squared modulus. -/
theorem normSq_entanglementFactor (p : Emotion → ℚ) (dance : DanceStyle) (e : Emotion) :
    Complex.normSq (entanglementFactor p dance e) = 1 := by
  rcases hc : correlationTable e dance with _ | c
  · have h1 : entanglementFactor p dance e = 1 := by
      unfold entanglementFactor
      rw [hc]
    rw [h1]
    simp
  · have h1 : entanglementFactor p dance e =
        Complex.exp (Complex.ofReal
          (((c * entanglementStrength : ℚ) : ℝ) * (Real.pi / 2) * ((p e : ℚ) : ℝ))
            * Complex.I) := by
      unfold entanglementFactor
      rw [hc]
    rw [h1, Complex.normSq_eq_abs, Complex.abs_exp_ofReal_mul_I]
    norm_num

/-- Every entry of the entanglement diagonal has unit squared modulus. -/
theorem normSq_entanglementDiagonal (p : Emotion → ℚ) (j : ℕ) :
    Complex.normSq (entanglementDiagonal p j) = 1 := by
  unfold entanglementDiagonal
  rcases danceStylesList[j]? with _ | dance
  · simp
  · exact normSq_list_prod_one _ (fun z hz => by
      obtain ⟨e, he, rfl⟩ := List.mem_map.mp hz
      exact normSq_entanglementFactor p dance e)

/-- Claim C3: the entanglement transform of the amplitude engine preserves
the Euclidean norm of every state exactly, because every diagonal entry is a
product of unit-modulus phase factors. -/
theorem claim_c3 (ψ : QuantumState) (p : Emotion → ℚ) (hp : ∀ e, 0 ≤ p e) :
    stateNorm (applyEntanglement ψ p) = stateNorm ψ := by
  unfold stateNorm stateNormSq applyEntanglement
  simp only [Complex.normSq_mul, normSq_entanglementDiagonal, one_mul]

/-- Witness for claim C3 at the zero state and zero distribution. -/
theorem claim_c3_witness :
    stateNorm (applyEntanglement (fun _ => 0) (fun _ => 0)) = stateNorm (fun _ => 0) :=
  claim_c3 (fun _ => 0) (fun _ => 0) (fun _ => le_refl 0)

/-- Every correlation table entry is nonnegative. -/
theorem correlationTable_getD_nonneg (e : Emotion) (d : DanceStyle) :
    0 ≤ (correlationTable e d).getD 0 := by
  cases e <;> cases d <;> norm_num [correlationTable]

/-- The boost term is nonnegative for nonnegative distributions. -/
theorem entanglementBoost_nonneg (p : Emotion → ℚ) (hp : ∀ e, 0 ≤ p e) (d : DanceStyle) :
    0 ≤ entanglementBoost p d := by
  unfold entanglementBoost
  apply list_sum_map_nonneg
  intro e he
  rcases hc : correlationTable e d with _ | c
  · exact le_refl 0
  · have h1 := correlationTable_getD_nonneg e d
    rw [hc, Option.getD_some] at h1
    exact mul_nonneg (hp e) h1

/-- The unnormalized dance weight is nonnegative for nonnegative
distributions: the projection is a squared modulus and 1 + boost exceeds 1. -/
theorem danceWeight_nonneg (ψ : QuantumState) (p : Emotion → ℚ)
    (hp : ∀ e, 0 ≤ p e) (d : DanceStyle) : 0 ≤ danceWeight ψ p d := by
  unfold danceWeight
  apply mul_nonneg
  · unfold danceProjection
    positivity
  · have hb := entanglementBoost_nonneg p hp d
    have hbr : (0 : ℝ) ≤ ((entanglementBoost p d : ℚ) : ℝ) := by exact_mod_cast hb
    linarith

/-- The unfolded shape of normalizedDanceWeight. -/
theorem normalizedDanceWeight_eq (ψ : QuantumState) (p : Emotion → ℚ) :
    normalizedDanceWeight ψ p =
      if 0 < (danceStylesList.map (danceWeight ψ p)).sum
      then (fun d => danceWeight ψ p d / (danceStylesList.map (danceWeight ψ p)).sum)
      else danceWeight ψ p := rfl

/-- The unfolded shape of quantumMeasurement. -/
theorem quantumMeasurement_eq (ψ : QuantumState) (p : Emotion → ℚ) :
    quantumMeasurement ψ p =
      (((List.insertionSort weightDescending
          (danceStylesList.map (fun d => (d, normalizedDanceWeight ψ p d)))).take topK).filter
        (fun x => decide ((superpositionThreshold : ℝ) < x.2))).map
        (fun x => { dance_style := x.1, score := x.2, confidence := x.2,
                    reasoning := quantumReasoning x.1 p,
                    quantum_amplitude := x.2 : QuantumRecommendation }) := rfl

/-- Claim C5: for every nonnegative input distribution and every choice of
phases, once any unnormalized dance weight of the amplitude engine is
nonzero the normalized weights sum to exactly 1, and every recommendation
kept by the measurement has normalized weight strictly greater than the
superposition threshold 0.1. -/
theorem claim_c5 (p : Emotion → ℚ) (phi : Emotion → ℝ) (hp : ∀ e, 0 ≤ p e) :
    ((∃ d, danceWeight (applyEntanglement (createSuperpositionState p phi) p) p d ≠ 0) →
      (danceStylesList.map
        (normalizedDanceWeight (applyEntanglement (createSuperpositionState p phi) p) p)).sum
        = 1) ∧
    (∀ r ∈ quantumMeasurement (applyEntanglement (createSuperpositionState p phi) p) p,
      (superpositionThreshold : ℝ) < r.score) := by
  constructor
  · rintro ⟨d0, hd0⟩
    have hw0 : 0 < danceWeight (applyEntanglement (createSuperpositionState p phi) p) p d0 :=
      lt_of_le_of_ne (danceWeight_nonneg _ p hp d0) (Ne.symm hd0)
    have hmem : danceWeight (applyEntanglement (createSuperpositionState p phi) p) p d0 ∈
        danceStylesList.map
          (danceWeight (applyEntanglement (createSuperpositionState p phi) p) p) :=
      List.mem_map_of_mem _ (mem_danceStylesList d0)
    have htot : 0 < (danceStylesList.map
        (danceWeight (applyEntanglement (createSuperpositionState p phi) p) p)).sum :=
      lt_of_lt_of_le hw0 (List.single_le_sum (fun x hx => by
        obtain ⟨d, hd, rfl⟩ := List.mem_map.mp hx
        exact danceWeight_nonneg _ p hp d) _ hmem)
    rw [normalizedDanceWeight_eq, if_pos htot, list_sum_map_div]
    exact div_self (ne_of_gt htot)
  · intro r hr
    rw [quantumMeasurement_eq] at hr
    obtain ⟨x, hx, rfl⟩ := List.mem_map.mp hr
    exact of_decide_eq_true (List.mem_filter.mp hx).2

/-- Witness for claim C5 at the distribution concentrated on happy with zero
phases: the Ballet weight is 1, so the normalized weights sum to 1. -/
theorem claim_c5_witness :
    (danceStylesList.map
      (normalizedDanceWeight
        (applyEntanglement (createSuperpositionState happyOnly zeroPhase) happyOnly)
        happyOnly)).sum = 1 := by
  have hp : ∀ e, 0 ≤ happyOnly e := by decide
  refine (claim_c5 happyOnly zeroPhase hp).1 ⟨.ballet, ?_⟩
  have hsum1 : sumOver happyOnly = 1 := by
    norm_num [sumOver, allEmotionsList, facialEmotionsList, movementEmotionsList, happyOnly]
  have hraw0 : rawSuperposition happyOnly zeroPhase 0 = 1 := by
    simp [rawSuperposition, allEmotionsList, facialEmotionsList, movementEmotionsList,
      emotionBasis, basisVec, emotionIdx, quantumDimensions, superpositionAmplitude,
      happyOnly, zeroPhase]
  have hnsq : stateNormSq (rawSuperposition happyOnly zeroPhase) = 1 := by
    rw [stateNormSq_rawSuperposition happyOnly zeroPhase hp, hsum1]
    norm_num
  have hn1 : stateNorm (rawSuperposition happyOnly zeroPhase) = 1 := by
    unfold stateNorm
    rw [hnsq, Real.sqrt_one]
  have hsup : createSuperpositionState happyOnly zeroPhase 0 = 1 := by
    rw [createSuperpositionState_eq, if_pos (by rw [hn1]; norm_num)]
    simp [hraw0, hn1]
  have hip : innerProduct (danceBasis .ballet)
      (applyEntanglement (createSuperpositionState happyOnly zeroPhase) happyOnly) =
      entanglementDiagonal happyOnly 0 * createSuperpositionState happyOnly zeroPhase 0 := by
    simp [innerProduct, coordList_eq, danceBasis, basisVec, danceIdx, quantumDimensions,
      applyEntanglement]
  have hproj : danceProjection
      (applyEntanglement (createSuperpositionState happyOnly zeroPhase) happyOnly)
      .ballet = 1 := by
    unfold danceProjection
    rw [hip, hsup, mul_one, Complex.sq_abs, normSq_entanglementDiagonal]
  have hboost : entanglementBoost happyOnly .ballet = 0 := by
    norm_num [entanglementBoost, allEmotionsList, facialEmotionsList, movementEmotionsList,
      correlationTable, happyOnly]
  unfold danceWeight
  rw [hproj, hboost]
  norm_num

/-! ## Concrete scenarios -/

/-- Claim C7: on the distribution concentrated on energetic, the highest
energetic affinity in the table is 0.9 and the deterministic engine ranks
Hip-Hop first with exactly that score. -/
theorem claim_c7 :
    (∀ d : DanceStyle, ((affinityTable Emotion.energetic d).getD 0) ≤ 0.9) ∧
    ((classicalRecommend energeticOnly).recommendations.head?).map
      (fun r => (r.dance_style, r.score)) = some (DanceStyle.hipHop, 0.9) := by
  constructor
  · intro d
    cases d <;> norm_num [affinityTable]
  · rw [classicalRecommend_recs_name]
    norm_num [classicalRecommendations, danceScore, energeticOnly, allEmotionsList,
      facialEmotionsList, movementEmotionsList, danceStylesList, affinityTable, topK,
      scoreDescending, List.insertionSort, List.orderedInsert]

set_option maxHeartbeats 2000000 in
/-- Counterexample to claim C6: on the all-zero aggregated features with no
sample frames, the deterministic engine does NOT return an empty
recommendation list — the movement fallback (calm, graceful and melancholic
get positive weight) and the uniform facial fallback give several dance
styles positive scores. -/
theorem claim_c6_counterexample :
    (classicalRecommend
      (analyzeEmotions zeroFeatures noFaceDetector).combined).recommendations.length ≠ 0 := by
  rw [classicalRecommend_recs_name]
  norm_num [classicalRecommendations, danceScore, analyzeEmotions, analyzeFacialPresence,
    uniformFacial, detectedFacial, analyzeMovementEmotions, movementRaw, combineEmotions,
    sumOver, zeroFeatures, allEmotionsList, facialEmotionsList, movementEmotionsList,
    danceStylesList, affinityTable, topK, scoreDescending,
    List.insertionSort, List.orderedInsert]

set_option maxHeartbeats 2000000 in
/-- Amended claim C6: on the all-zero aggregated features with no sample
frames the facial branch is the uniform fallback, and the deterministic
engine returns a full list of 5 recommendations (all scores are positive by
claim C4), not an empty list. -/
theorem claim_c6_amended :
    (analyzeEmotions zeroFeatures noFaceDetector).facial = uniformFacial ∧
    (classicalRecommend
      (analyzeEmotions zeroFeatures noFaceDetector).combined).recommendations.length = 5 := by
  constructor
  · rfl
  · rw [classicalRecommend_recs_name]
    norm_num [classicalRecommendations, danceScore, analyzeEmotions, analyzeFacialPresence,
      uniformFacial, detectedFacial, analyzeMovementEmotions, movementRaw, combineEmotions,
      sumOver, zeroFeatures, allEmotionsList, facialEmotionsList, movementEmotionsList,
      danceStylesList, affinityTable, topK, scoreDescending,
      List.insertionSort, List.orderedInsert]
